import Mathlib

/-!
Verification of the `coordinated_exit` Go package (yalue/coordinated_exit).

The package keeps process-global state:
  var shouldExit atomic.Bool
  var exitReasons []error
  var signalAlreadyHandled bool
  var exitCond *sync.Cond   (built over `mutex`)
  var mutex sync.Mutex

We model that state as an explicit `ExitState` record and each exported
function as a function over it.  Go `error` values are modelled by
`Option GoError` (`none` is Go's `nil` error); `errors.Join` is modelled
faithfully, including its filtering of `nil` arguments and its returning
`nil` when every argument is `nil`.

Blocking behaviour (the `sync.Cond` protocol of `WaitForExit` against
`ExitWithoutError`, which stores the flag and broadcasts WITHOUT holding
the mutex) is modelled separately as a small-step transition system
(`CECfg`/`CEStep` below).
-/

/-- A non-nil Go error value: either an ordinary error (identified by its
message) or the result of `errors.Join` applied to the listed non-nil
errors. -/
inductive GoError where
  | base : String → GoError
  | joined : List GoError → GoError

/-- `errors.Join(errs...)` from the Go standard library: counts the non-nil
arguments; returns nil when there are none, and otherwise a join error
holding exactly the non-nil arguments in order. -/
def errorsJoin (errs : List (Option GoError)) : Option GoError :=
  match errs.filterMap id with
  | [] => none
  | nonNil => some (GoError.joined nonNil)

/-- The package-global mutable state: `shouldExit` (atomic bool),
`exitReasons` (slice of errors, possibly containing nil entries), and
`signalAlreadyHandled` (guard for `ExitOnInterrupt`). -/
structure ExitState where
  shouldExit : Bool
  exitReasons : List (Option GoError)
  signalAlreadyHandled : Bool

/-- The state established by the package `init()` function: flag unset,
empty reason slice, no interrupt handler installed. -/
def initState : ExitState :=
  { shouldExit := false, exitReasons := [], signalAlreadyHandled := false }

/-- `ShouldExit()`: returns the current value of the atomic flag. -/
def ShouldExit (s : ExitState) : Bool :=
  s.shouldExit

/-- `ExitReason()` in state-passing form: locks the mutex, branches on
`len(exitReasons)` (0 → nil, 1 → `exitReasons[0]`, else
`errors.Join(exitReasons...)`), unlocks, and returns.  The function body
performs no write to any global, so the state component is returned
unchanged. -/
def ExitReasonST (s : ExitState) : ExitState × Option GoError :=
  match s.exitReasons with
  | [] => (s, none)
  | [e] => (s, e)
  | es => (s, errorsJoin es)

/-- The value returned by `ExitReason()`. -/
def ExitReason (s : ExitState) : Option GoError :=
  (ExitReasonST s).2

/-- `ExitWithoutError()`: stores `true` into the atomic flag and broadcasts
on the condition variable.  It takes the mutex at no point; the broadcast
has no effect on the package state, so on `ExitState` the call is the flag
store alone.  (Its interaction with blocked waiters is modelled by the
transition system below.) -/
def ExitWithoutError (s : ExitState) : ExitState :=
  { s with shouldExit := true }

/-- `ExitWithError(e)`: locks the mutex, appends `e` to `exitReasons`,
unlocks, then calls `ExitWithoutError()`. -/
def ExitWithError (e : Option GoError) (s : ExitState) : ExitState :=
  ExitWithoutError { s with exitReasons := s.exitReasons ++ [e] }

/-- `ExitOnInterrupt()`: under the mutex, if `signalAlreadyHandled` is
already true it returns at once; otherwise it starts one
`waitForInterruptRoutine` goroutine and sets `signalAlreadyHandled`.  The
second component counts the background goroutines started by the call. -/
def ExitOnInterrupt (s : ExitState) : ExitState × Nat :=
  if s.signalAlreadyHandled then (s, 0)
  else ({ s with signalAlreadyHandled := true }, 1)

/-- The value `WaitForExit()` returns once it runs to completion:
`some r` when the flag is set (the wait loop falls through at once and the
call returns `ExitReason()`), `none` when the flag is unset and the call
would block. -/
def WaitForExit (s : ExitState) : Option (Option GoError) :=
  if s.shouldExit then some (ExitReason s) else none

/-- One call of the public API, for reasoning over call sequences. -/
inductive Op where
  | shouldExitOp : Op
  | exitWithoutErrorOp : Op
  | exitWithErrorOp : Option GoError → Op
  | exitOnInterruptOp : Op
  | waitForExitOp : Op

/-- Effect of one API call on the package state, paired with the number of
background interrupt-listener goroutines the call starts.  `ShouldExit`
and `WaitForExit` only read the state. -/
def applyOp : Op → ExitState → ExitState × Nat
  | .shouldExitOp, s => (s, 0)
  | .exitWithoutErrorOp, s => (ExitWithoutError s, 0)
  | .exitWithErrorOp e, s => (ExitWithError e s, 0)
  | .exitOnInterruptOp, s => ExitOnInterrupt s
  | .waitForExitOp, s => (s, 0)

/-- Effect of a sequence of API calls, accumulating the number of
background interrupt-listener goroutines started along the way. -/
def runOps : List Op → ExitState → ExitState × Nat
  | [], s => (s, 0)
  | op :: rest, s =>
    let r := applyOp op s
    let r2 := runOps rest r.1
    (r2.1, r.2 + r2.2)

/-!
Small-step model of one waiter executing `WaitForExit()` concurrently with
one signaller executing `ExitWithoutError()`.

Waiter (`WaitForExit`):
    exitCond.L.Lock()
    for !shouldExit.Load() { exitCond.Wait() }
    exitCond.L.Unlock()
`sync.Cond.Wait` adds the caller to the condition's notify list, releases
the mutex and suspends; a later `Broadcast` wakes every goroutine on the
notify list, which then reacquires the mutex and re-checks the flag.

Signaller (`ExitWithoutError`):
    shouldExit.Store(true)
    exitCond.Broadcast()
Neither statement runs under the mutex: `ExitWithoutError` never locks it.
-/

/-- Program counter of the waiter running `WaitForExit()`. -/
inductive WaiterPC where
  | atLock      -- about to acquire exitCond.L
  | atCheck     -- holds the mutex, about to load shouldExit
  | atWait      -- holds the mutex, loaded false, about to call Wait
  | suspended   -- parked on the notify list, mutex released
  | atRelock    -- woken by a broadcast, reacquiring the mutex
  | atUnlock    -- loaded true, about to release the mutex and return
  | returned    -- call completed
deriving DecidableEq

/-- Program counter of the signaller running `ExitWithoutError()`. -/
inductive SignallerPC where
  | atStore     -- about to run shouldExit.Store(true)
  | atBroadcast -- about to run exitCond.Broadcast()
  | finished    -- call completed
deriving DecidableEq

/-- A configuration of the two-goroutine system: both program counters,
the atomic flag, whether the waiter holds the mutex, and whether the
waiter is on the condition's notify list. -/
structure CECfg where
  w : WaiterPC
  s : SignallerPC
  flag : Bool
  lockHeld : Bool
  onNotifyList : Bool
deriving DecidableEq

/-- The configuration in which both calls start: flag unset, mutex free,
notify list empty. -/
def startCfg : CECfg :=
  { w := .atLock, s := .atStore, flag := false, lockHeld := false,
    onNotifyList := false }

/-- One scheduler step of either goroutine.  The store and the broadcast
are enabled regardless of who holds the mutex, because `ExitWithoutError`
does not acquire it. -/
inductive CEStep : CECfg → CECfg → Prop where
  | lock (c : CECfg) (hw : c.w = .atLock) (hl : c.lockHeld = false) :
      CEStep c { c with w := .atCheck, lockHeld := true }
  | checkTrue (c : CECfg) (hw : c.w = .atCheck) (hf : c.flag = true) :
      CEStep c { c with w := .atUnlock }
  | checkFalse (c : CECfg) (hw : c.w = .atCheck) (hf : c.flag = false) :
      CEStep c { c with w := .atWait }
  | waitSuspend (c : CECfg) (hw : c.w = .atWait) :
      CEStep c { c with w := .suspended, lockHeld := false, onNotifyList := true }
  | relock (c : CECfg) (hw : c.w = .atRelock) (hl : c.lockHeld = false) :
      CEStep c { c with w := .atCheck, lockHeld := true }
  | unlockReturn (c : CECfg) (hw : c.w = .atUnlock) :
      CEStep c { c with w := .returned, lockHeld := false }
  | store (c : CECfg) (hs : c.s = .atStore) :
      CEStep c { c with s := .atBroadcast, flag := true }
  | broadcastWake (c : CECfg) (hs : c.s = .atBroadcast)
      (hn : c.onNotifyList = true) :
      CEStep c { c with s := .finished, onNotifyList := false, w := .atRelock }
  | broadcastNoop (c : CECfg) (hs : c.s = .atBroadcast)
      (hn : c.onNotifyList = false) :
      CEStep c { c with s := .finished }

/-- The configuration reached by the interleaving: the waiter acquires the
mutex and loads `false`; the signaller then runs `ExitWithoutError()` to
completion (store, then a broadcast that finds the notify list empty);
finally the waiter calls `Wait` and suspends. -/
def lostWakeupCfg : CECfg :=
  { w := .suspended, s := .finished, flag := true, lockHeld := false,
    onNotifyList := true }

/-- Reachability under the scheduler. -/
def CEReachable (a b : CECfg) : Prop :=
  Relation.ReflTransGen CEStep a b

/-!
Event-level model of `waitForInterruptRoutine`, the goroutine started by
`ExitOnInterrupt`.  It creates a buffered channel `c`, registers it with
`signal.Notify(c, os.Interrupt)`, and starts a child goroutine that
performs `<-c; ExitWithoutError()`.  The parent then calls
`WaitForExit()`, and on return runs `signal.Stop(c); close(c)`.
An interrupt delivered while the registration is active is therefore
consumed by the child (which sets the exit flag, waking the parent, which
deactivates the registration); an interrupt delivered while no
registration is active receives the process default handling
(termination).
-/

/-- Whether the `signal.Notify` registration made by
`waitForInterruptRoutine` is currently active. -/
structure BridgeState where
  notifyActive : Bool
deriving DecidableEq

/-- The registration state right after `waitForInterruptRoutine` has run
`signal.Notify(c, os.Interrupt)`. -/
def bridgeStart : BridgeState :=
  { notifyActive := true }

/-- What happens to one delivered os.Interrupt. -/
inductive InterruptOutcome where
  | intercepted     -- absorbed by the bridge channel
  | defaultHandling -- the process default: immediate termination
deriving DecidableEq

/-- Run-to-completion delivery of one os.Interrupt against
`waitForInterruptRoutine`.  With the registration active: the child
goroutine receives from `c` and calls `ExitWithoutError()`; the parent
returns from `WaitForExit()` and runs `signal.Stop(c); close(c)`,
deactivating the registration.  With it inactive: the interrupt receives
default handling and the package state is untouched. -/
def deliverInterrupt (s : ExitState) (b : BridgeState) :
    ExitState × BridgeState × InterruptOutcome :=
  if b.notifyActive then
    (ExitWithoutError s, { notifyActive := false }, .intercepted)
  else
    (s, b, .defaultHandling)

/-!
Helper lemmas shared by the claim theorems.
-/

/-- `errors.Join` on a list whose non-nil entries are `g :: l` gives the
join error over exactly those entries. -/
theorem errorsJoin_eq_joined (errs : List (Option GoError)) (g : GoError)
    (l : List GoError) (h : errs.filterMap id = g :: l) :
    errorsJoin errs = some (GoError.joined (g :: l)) := by
  unfold errorsJoin
  rw [h]

/-- `ExitReason` on a log with at least two entries is `errors.Join` of
the whole log. -/
theorem exitReason_of_two (s : ExitState) (r1 r2 : Option GoError)
    (more : List (Option GoError)) (h : s.exitReasons = r1 :: r2 :: more) :
    ExitReason s = errorsJoin s.exitReasons := by
  unfold ExitReason ExitReasonST
  rw [h]

/-- `ExitReason` on a log with at least two entries (length form) is
`errors.Join` of the whole log. -/
theorem exitReason_of_len_two (s : ExitState)
    (h : 2 ≤ s.exitReasons.length) :
    ExitReason s = errorsJoin s.exitReasons := by
  rcases hrs : s.exitReasons with _ | ⟨r1, _ | ⟨r2, more⟩⟩
  · rw [hrs] at h; simp at h
  · rw [hrs] at h; simp at h
  · rw [← hrs]
    exact exitReason_of_two s r1 r2 more hrs

/-- `errors.Join` of a log extended by two non-nil entries reports the
non-nil prefix entries followed by the two new ones. -/
theorem errorsJoin_append_two (rs : List (Option GoError))
    (e1 e2 : GoError) :
    errorsJoin (rs ++ [some e1, some e2])
      = some (.joined (rs.filterMap id ++ [e1, e2])) := by
  have hfm : (rs ++ [some e1, some e2]).filterMap id
      = rs.filterMap id ++ [e1, e2] := by simp
  cases hg : rs.filterMap id ++ [e1, e2] with
  | nil => simp at hg
  | cons g l =>
    rw [hg] at hfm
    rw [errorsJoin_eq_joined _ g l hfm, ← hg]

/-- `ExitReason` reads only the reason log: the flag and the installation
guard do not influence it. -/
theorem exitReason_depends_only_on_log (f1 f2 b1 b2 : Bool)
    (r : List (Option GoError)) :
    ExitReason { shouldExit := f1, exitReasons := r,
                 signalAlreadyHandled := b1 }
      = ExitReason { shouldExit := f2, exitReasons := r,
                     signalAlreadyHandled := b2 } := by
  unfold ExitReason ExitReasonST
  cases r with
  | nil => rfl
  | cons a t => cases t <;> rfl

/-- No API call ever clears the exit flag once set. -/
theorem applyOp_flag_mono (op : Op) (s : ExitState)
    (h : s.shouldExit = true) : ((applyOp op s).1).shouldExit = true := by
  cases op with
  | shouldExitOp => exact h
  | exitWithoutErrorOp => rfl
  | exitWithErrorOp e => rfl
  | exitOnInterruptOp =>
    simp only [applyOp, ExitOnInterrupt]
    split <;> simp [h]
  | waitForExitOp => exact h

/-- No sequence of API calls ever clears the exit flag once set. -/
theorem runOps_flag_mono (ops : List Op) (s : ExitState)
    (h : s.shouldExit = true) : ((runOps ops s).1).shouldExit = true := by
  induction ops generalizing s with
  | nil => exact h
  | cons op rest ih =>
    exact ih (applyOp op s).1 (applyOp_flag_mono op s h)

/-- No API call ever clears `signalAlreadyHandled` once set. -/
theorem applyOp_handled_mono (op : Op) (s : ExitState)
    (h : s.signalAlreadyHandled = true) :
    ((applyOp op s).1).signalAlreadyHandled = true := by
  cases op with
  | shouldExitOp => exact h
  | exitWithoutErrorOp => exact h
  | exitWithErrorOp e => exact h
  | exitOnInterruptOp => simp [applyOp, ExitOnInterrupt, h]
  | waitForExitOp => exact h

/-- No sequence of API calls ever clears `signalAlreadyHandled` once
set. -/
theorem runOps_handled_mono (ops : List Op) (s : ExitState)
    (h : s.signalAlreadyHandled = true) :
    ((runOps ops s).1).signalAlreadyHandled = true := by
  induction ops generalizing s with
  | nil => exact h
  | cons op rest ih =>
    exact ih (applyOp op s).1 (applyOp_handled_mono op s h)

/-- Once `signalAlreadyHandled` is set, no sequence of API calls starts
any further interrupt-listener goroutine. -/
theorem runOps_handled_count (ops : List Op) (s : ExitState)
    (h : s.signalAlreadyHandled = true) : (runOps ops s).2 = 0 := by
  induction ops generalizing s with
  | nil => rfl
  | cons op rest ih =>
    have hrest := ih (applyOp op s).1 (applyOp_handled_mono op s h)
    have hop : (applyOp op s).2 = 0 := by
      cases op <;> simp [applyOp, ExitOnInterrupt, h]
    simp [runOps, hop, hrest]

/-- Any sequence of API calls starts at most one interrupt-listener
goroutine. -/
theorem runOps_count_le_one (ops : List Op) (s : ExitState) :
    (runOps ops s).2 ≤ 1 := by
  induction ops generalizing s with
  | nil => simp [runOps]
  | cons op rest ih =>
    cases op with
    | exitOnInterruptOp =>
      by_cases h : s.signalAlreadyHandled = true
      · have hrest := runOps_handled_count rest s h
        simp [runOps, applyOp, ExitOnInterrupt, h, hrest]
      · have hb : s.signalAlreadyHandled = false := by
          simpa using h
        have hrest := runOps_handled_count rest
          { s with signalAlreadyHandled := true } rfl
        simp [runOps, applyOp, ExitOnInterrupt, hb, hrest]
    | shouldExitOp => simpa [runOps, applyOp] using ih s
    | waitForExitOp => simpa [runOps, applyOp] using ih s
    | exitWithoutErrorOp => simpa [runOps, applyOp] using ih _
    | exitWithErrorOp e => simpa [runOps, applyOp] using ih _

/-!
Claim theorems.
-/

/-- A reason log holding two nil entries (two calls of
`ExitWithError(nil)` after the flag was set). -/
def allNilLog : ExitState :=
  { shouldExit := true, exitReasons := [none, none],
    signalAlreadyHandled := false }

/-- A reason log holding one nil entry followed by one real error. -/
def mixedNilLog : ExitState :=
  { shouldExit := true, exitReasons := [none, some (.base "x")],
    signalAlreadyHandled := false }

/-- C2, counterexample: with more than one recorded entry the claim
demands a composite error value preserving all underlying reasons, but on
the two-entry log `[nil, nil]` `ExitReason()` returns nil (no error value
at all), and on `[nil, x]` it returns a composite reporting only `x`,
dropping the nil entry. -/
theorem exitReason_composite_counterexample :
    allNilLog.exitReasons.length = 2 ∧
    ExitReason allNilLog = none ∧
    mixedNilLog.exitReasons.length = 2 ∧
    ExitReason mixedNilLog = some (.joined [.base "x"]) :=
  ⟨rfl, rfl, rfl, rfl⟩

/-- C2 (amended): `ExitReason()` returns nil on an empty log, the single
entry itself (by identity, unwrapped) on a one-entry log, and otherwise
`errors.Join` of the whole log — nil when every entry is nil, and else a
join error carrying exactly the non-nil entries in order. -/
theorem exitReason_three_cases (s : ExitState) :
    (s.exitReasons = [] → ExitReason s = none) ∧
    (∀ e, s.exitReasons = [e] → ExitReason s = e) ∧
    (∀ r1 r2 more, s.exitReasons = r1 :: r2 :: more →
      (ExitReason s = errorsJoin s.exitReasons ∧
       ((r1 :: r2 :: more).filterMap id = [] → ExitReason s = none) ∧
       (∀ g l, (r1 :: r2 :: more).filterMap id = g :: l →
         ExitReason s = some (GoError.joined (g :: l))))) := by
  refine ⟨?_, ?_, ?_⟩
  · intro h
    unfold ExitReason ExitReasonST
    rw [h]
  · intro e h
    unfold ExitReason ExitReasonST
    rw [h]
  · intro r1 r2 more h
    have hbase := exitReason_of_two s r1 r2 more h
    refine ⟨hbase, ?_, ?_⟩
    · intro hnil
      rw [hbase, h]
      unfold errorsJoin
      rw [hnil]
    · intro g l hl
      rw [hbase, h]
      exact errorsJoin_eq_joined _ g l hl

/-- C2 witness: the amended theorem applied to the concrete two-entry log
`[a, b]`, whose combined reason is the join of both. -/
theorem exitReason_three_cases_witness :
    ExitReason { shouldExit := true,
                 exitReasons := [some (.base "a"), some (.base "b")],
                 signalAlreadyHandled := false }
      = some (.joined [.base "a", .base "b"]) :=
  ((exitReason_three_cases _).2.2 (some (.base "a")) (some (.base "b"))
    [] rfl).2.2 (.base "a") [.base "b"] rfl

/-- C3: calling `ExitWithError(e1)` then `ExitWithError(e2)` from any
state (the flag may already be set, the log may already hold entries)
appends exactly `[e1, e2]` to the log in call order — nothing is dropped,
deduplicated or reordered — sets the flag, and makes `WaitForExit()`
return at once with a combined reason whose underlying list contains both
`e1` and `e2`. -/
theorem exitWithError_both_reasons_reported (s : ExitState)
    (e1 e2 : GoError) :
    (ExitWithError (some e2) (ExitWithError (some e1) s)).exitReasons
        = s.exitReasons ++ [some e1, some e2] ∧
    (ExitWithError (some e2) (ExitWithError (some e1) s)).shouldExit
        = true ∧
    WaitForExit (ExitWithError (some e2) (ExitWithError (some e1) s))
        = some (ExitReason
            (ExitWithError (some e2) (ExitWithError (some e1) s))) ∧
    ExitReason (ExitWithError (some e2) (ExitWithError (some e1) s))
        = some (.joined (s.exitReasons.filterMap id ++ [e1, e2])) ∧
    e1 ∈ s.exitReasons.filterMap id ++ [e1, e2] ∧
    e2 ∈ s.exitReasons.filterMap id ++ [e1, e2] := by
  have hlog : (ExitWithError (some e2)
      (ExitWithError (some e1) s)).exitReasons
      = s.exitReasons ++ [some e1, some e2] := by
    simp [ExitWithError, ExitWithoutError]
  refine ⟨hlog, rfl, ?_, ?_, by simp, by simp⟩
  · simp [WaitForExit, ExitWithError, ExitWithoutError]
  · have hlen : 2 ≤ (ExitWithError (some e2)
        (ExitWithError (some e1) s)).exitReasons.length := by
      rw [hlog]
      simp only [List.length_append, List.length_cons, List.length_nil]
      omega
    rw [exitReason_of_len_two _ hlen, hlog, errorsJoin_append_two]

/-- C5: `ExitWithoutError()` never touches the reason log (nor the
installation guard), in every state; in particular, after
`ExitWithError("disk full")` followed by `ExitWithoutError()`,
`WaitForExit()` still returns the "disk full" reason itself. -/
theorem exitWithoutError_frame (s : ExitState) :
    (ExitWithoutError s).exitReasons = s.exitReasons ∧
    (ExitWithoutError s).signalAlreadyHandled = s.signalAlreadyHandled ∧
    WaitForExit (ExitWithoutError
        (ExitWithError (some (.base "disk full")) initState))
      = some (some (.base "disk full")) :=
  ⟨rfl, rfl, rfl⟩

/-- C9: after `ExitWithError(nil)` from the initial state, the nil entry
is stored in the log, yet `WaitForExit()` returns nil — the same value a
clean `ExitWithoutError()` exit produces, so the two are
indistinguishable through the public interface. -/
theorem exitWithError_nil_indistinguishable :
    (ExitWithError none initState).exitReasons = [none] ∧
    WaitForExit (ExitWithError none initState) = some none ∧
    WaitForExit (ExitWithoutError initState) = some none :=
  ⟨rfl, rfl, rfl⟩

/-- C10: `ExitReason()` is a pure read: it returns the package state
unchanged in every state, and returns nil on an empty log regardless of
the exit flag or the installation guard. -/
theorem exitReason_no_side_effect (s : ExitState) (flag brj : Bool) :
    (ExitReasonST s).1 = s ∧
    (ExitReasonST { shouldExit := flag, exitReasons := [],
                    signalAlreadyHandled := brj }).2 = none := by
  refine ⟨?_, rfl⟩
  unfold ExitReasonST
  split <;> rfl

/-- C4: the exit flag is monotonic — from any state in which
`ShouldExit()` reads true, no subsequent sequence of API calls (poll,
signal with or without error, wait, interrupt-handler installation) can
make it read false again. -/
theorem shouldExit_monotonic (reasons : List (Option GoError))
    (brj : Bool) (ops : List Op) :
    ShouldExit (runOps ops { shouldExit := true, exitReasons := reasons,
                             signalAlreadyHandled := brj }).1 = true :=
  runOps_flag_mono ops _ rfl

/-- C6: once the exit flag is set, `WaitForExit()` returns immediately
(with `ExitReason()`), and a second call after any interleaved call that
is not `ExitWithError` — another `WaitForExit()`, a poll, an
`ExitWithoutError()`, or an `ExitOnInterrupt()` — returns the same
value. -/
theorem waitForExit_idempotent_after_exit
    (r : List (Option GoError)) (b : Bool) :
    WaitForExit { shouldExit := true, exitReasons := r,
                  signalAlreadyHandled := b }
      = some (ExitReason { shouldExit := true, exitReasons := r,
                           signalAlreadyHandled := b }) ∧
    WaitForExit ((applyOp .waitForExitOp
        { shouldExit := true, exitReasons := r,
          signalAlreadyHandled := b }).1)
      = WaitForExit { shouldExit := true, exitReasons := r,
                      signalAlreadyHandled := b } ∧
    WaitForExit ((applyOp .shouldExitOp
        { shouldExit := true, exitReasons := r,
          signalAlreadyHandled := b }).1)
      = WaitForExit { shouldExit := true, exitReasons := r,
                      signalAlreadyHandled := b } ∧
    WaitForExit ((applyOp .exitWithoutErrorOp
        { shouldExit := true, exitReasons := r,
          signalAlreadyHandled := b }).1)
      = WaitForExit { shouldExit := true, exitReasons := r,
                      signalAlreadyHandled := b } ∧
    WaitForExit ((applyOp .exitOnInterruptOp
        { shouldExit := true, exitReasons := r,
          signalAlreadyHandled := b }).1)
      = WaitForExit { shouldExit := true, exitReasons := r,
                      signalAlreadyHandled := b } := by
  refine ⟨by simp [WaitForExit], rfl, rfl, rfl, ?_⟩
  cases b with
  | true => rfl
  | false =>
    show WaitForExit { shouldExit := true, exitReasons := r,
                       signalAlreadyHandled := true }
      = WaitForExit { shouldExit := true, exitReasons := r,
                      signalAlreadyHandled := false }
    have h := exitReason_depends_only_on_log true true true false r
    simp [WaitForExit, h]

/-- C7: `ExitOnInterrupt()` with the guard already set is a no-op that
starts nothing; with the guard unset it starts exactly one listener
goroutine and sets the guard; no sequence of API calls ever clears the
guard; and from the initial state at most one listener goroutine is ever
started, however often and in whatever order the API is called. -/
theorem exitOnInterrupt_installs_once (f : Bool)
    (r : List (Option GoError)) (ops : List Op) :
    ExitOnInterrupt { shouldExit := f, exitReasons := r,
                      signalAlreadyHandled := true }
      = ({ shouldExit := f, exitReasons := r,
           signalAlreadyHandled := true }, 0) ∧
    ExitOnInterrupt { shouldExit := f, exitReasons := r,
                      signalAlreadyHandled := false }
      = ({ shouldExit := f, exitReasons := r,
           signalAlreadyHandled := true }, 1) ∧
    (runOps ops { shouldExit := f, exitReasons := r,
                  signalAlreadyHandled := true }).1.signalAlreadyHandled
      = true ∧
    (runOps ops initState).2 ≤ 1 := by
  refine ⟨by simp [ExitOnInterrupt], by simp [ExitOnInterrupt], ?_, ?_⟩
  · exact runOps_handled_mono ops _ rfl
  · exact runOps_count_le_one ops initState

/-- C8: with the bridge registration active, the first interrupt is
intercepted: it sets the exit flag exactly as `ExitWithoutError()` does
(the reason log is untouched) and deactivates the registration; an
interrupt delivered afterwards is not intercepted and receives the
process default handling, leaving the state unchanged. -/
theorem interrupt_consumed_once (s : ExitState) :
    (deliverInterrupt s bridgeStart).2.2 = .intercepted ∧
    (deliverInterrupt s bridgeStart).1.shouldExit = true ∧
    (deliverInterrupt s bridgeStart).1.exitReasons = s.exitReasons ∧
    (deliverInterrupt s bridgeStart).1
      = ExitWithoutError s ∧
    (deliverInterrupt s bridgeStart).2.1.notifyActive = false ∧
    (deliverInterrupt (deliverInterrupt s bridgeStart).1
        (deliverInterrupt s bridgeStart).2.1).2.2 = .defaultHandling ∧
    (deliverInterrupt (deliverInterrupt s bridgeStart).1
        (deliverInterrupt s bridgeStart).2.1).1
      = (deliverInterrupt s bridgeStart).1 := by
  refine ⟨rfl, rfl, rfl, rfl, rfl, rfl, rfl⟩

/-- C1, lost wakeup: under the scheduler there is an interleaving of one
`WaitForExit()` waiter with one completed `ExitWithoutError()` signaller
that reaches `lostWakeupCfg`: the signaller has finished (the flag is
set), yet the waiter is suspended on the notify list and no step is
enabled at all — the waiter never returns.  The interleaving exists
because `ExitWithoutError` stores the flag and broadcasts without holding
the mutex, so both actions can run between the waiter's flag check and
its wait-suspend. -/
theorem lostWakeup_deadlock :
    CEReachable startCfg lostWakeupCfg ∧
    lostWakeupCfg.flag = true ∧
    lostWakeupCfg.s = .finished ∧
    lostWakeupCfg.w = .suspended ∧
    (lostWakeupCfg.w = .returned) = False ∧
    ∀ c, CEStep lostWakeupCfg c = False := by
  refine ⟨?_, rfl, rfl, rfl, eq_false (by decide), ?_⟩
  · refine Relation.ReflTransGen.head (CEStep.lock startCfg rfl rfl) ?_
    refine Relation.ReflTransGen.head (CEStep.checkFalse _ rfl rfl) ?_
    refine Relation.ReflTransGen.head (CEStep.store _ rfl) ?_
    refine Relation.ReflTransGen.head (CEStep.broadcastNoop _ rfl rfl) ?_
    refine Relation.ReflTransGen.head (CEStep.waitSuspend _ rfl) ?_
    exact Relation.ReflTransGen.refl
  · intro c
    apply eq_false
    intro h
    cases h with
    | lock hw hl => exact absurd hw (by decide)
    | checkTrue hw hf => exact absurd hw (by decide)
    | checkFalse hw hf => exact absurd hw (by decide)
    | waitSuspend hw => exact absurd hw (by decide)
    | relock hw hl => exact absurd hw (by decide)
    | unlockReturn hw => exact absurd hw (by decide)
    | store hs => exact absurd hs (by decide)
    | broadcastWake hs hn => exact absurd hs (by decide)
    | broadcastNoop hs hn => exact absurd hs (by decide)
